/-
Verification of the stock-watchlist alert/notification pipeline.

Shallow embedding of the pipeline code:
  * pricing/models.py   — StockPrice, StockPriceManager.latest_price, StockPrice.save,
                          StockPrice.percentage_change, the (stock, timestamp) uniqueness
                          constraint realised by get_or_create
  * pricing/tasks.py    — fetch_stock_price_from_api, fetch_stock_prices
  * notifications/models.py — PriceAlert.check_condition, PriceAlert.trigger,
                          Notification.mark_as_sent / mark_as_failed
  * notifications/tasks.py  — evaluate_price_alerts, send_price_alert_notification

Conventions of the embedding:
  * instants (timezone.now(), DateTimeField) are natural numbers;
  * Decimal prices are rationals (ℚ);
  * the relational store is a list of records; the key-value cache is an
    association list keyed by strings, with get/set/delete;
  * fallible effects (HTTP fetch, SMTP send, DB save raising) are injected as
    `Except`/`Bool` parameters; a Python function that can raise is embedded
    with an `Except`/`Option` result, never by a partial Lean function.
-/
import Mathlib

set_option autoImplicit false

namespace StockWatchlist

/-! ## Data model: stocks and prices (pricing/models.py) -/

/-- A stock row: primary key plus its ticker symbol (the cache key uses the symbol). -/
structure Stock where
  stockId : Nat
  symbol : String
  deriving DecidableEq, Repr

/-- A `StockPrice` row: `{stock, price, volume, source, timestamp}`.
The `id` UUID plays no role in the pipeline's logic and is omitted;
rows are immutable after creation. -/
structure StockPrice where
  stock : Stock
  price : ℚ
  volume : Int
  source : String
  timestamp : Nat
  deriving DecidableEq, Repr

/-- The generic key-value cache collaborator: an association list. -/
abbrev Cache : Type := List (String × StockPrice)

/-- The `cache.get(key)`: first entry with the key, if any. -/
def cacheGet (c : Cache) (k : String) : Option StockPrice :=
  match List.find? (fun e => e.1 == k) c with
  | some e => some e.2
  | none => none

/-- The `cache.set(key, value, ttl)`: replace any entry at the key (TTL not modelled). -/
def cacheSet (c : Cache) (k : String) (v : StockPrice) : Cache :=
  (k, v) :: List.filter (fun e => e.1 != k) c

/-- The `cache.delete(key)`. -/
def cacheDelete (c : Cache) (k : String) : Cache :=
  List.filter (fun e => e.1 != k) c

/-- The mutable world the pricing code touches: the `stock_prices` table and the cache. -/
structure PriceState where
  store : List StockPrice
  cache : Cache
  deriving DecidableEq

/-- The `self.filter(stock=stock)`: rows whose foreign key equals the stock's pk. -/
def storeFilter (store : List StockPrice) (s : Stock) : List StockPrice :=
  List.filter (fun p => p.stock.stockId == s.stockId) store

/-- The `.latest('timestamp')`: the row with the greatest timestamp, `none` on an
empty queryset (`StockPrice.DoesNotExist`). Later rows win ties; the
`unique_stock_price_timestamp` constraint rules ties out for one stock. -/
def latestByTimestamp : List StockPrice → Option StockPrice
  | [] => none
  | p :: ps =>
    match latestByTimestamp ps with
    | none => some p
    | some q => if q.timestamp < p.timestamp then some p else some q

/-- The cache key `f'latest_price:{stock.symbol}'`. -/
def latestPriceKey (s : Stock) : String :=
  "latest_price:" ++ s.symbol

/-- The `StockPriceManager.latest_price(stock)`: cache-first, falling back to the
store's most-recent row by timestamp and caching it (pricing/models.py:32-51).
Returns the answer together with the possibly-updated state. -/
def latest_price (st : PriceState) (s : Stock) : Option StockPrice × PriceState :=
  match cacheGet st.cache (latestPriceKey s) with
  | some p => (some p, st)
  | none =>
    match latestByTimestamp (storeFilter st.store s) with
    | some p => (some p, { st with cache := cacheSet st.cache (latestPriceKey s) p })
    | none => (none, st)

/-- The `StockPrice.save` (pricing/models.py:160-171): `super().save()` inserts the
row, then the cached latest price for the stock's symbol is deleted. -/
def StockPrice.save (st : PriceState) (p : StockPrice) : PriceState :=
  { store := st.store ++ [p],
    cache := cacheDelete st.cache (latestPriceKey p.stock) }

/-- The `StockPrice.objects.get_or_create(stock=stock, timestamp=ts, defaults={...})`
(pricing/tasks.py:54-62): insert-if-absent keyed on `(stock, timestamp)` — the
`unique_stock_price_timestamp` constraint. On creation Django calls the model's
`save`, so the cache is invalidated; on a hit nothing changes. Returns
`(row, created?, state)`. -/
def get_or_create (st : PriceState) (s : Stock) (ts : Nat) (price : ℚ) (volume : Int)
    (source : String) : StockPrice × Bool × PriceState :=
  match List.find? (fun p => p.timestamp == ts) (storeFilter st.store s) with
  | some p => (p, false, st)
  | none =>
    let p : StockPrice := ⟨s, price, volume, source, ts⟩
    (p, true, StockPrice.save st p)

/-- Division that records the `ZeroDivisionError` case (Python raises on `x / 0`). -/
def divChecked (a b : ℚ) : Option ℚ :=
  if b = 0 then none else some (a / b)

/-- The `round(float(change), 2)`: round to two decimal places over ℚ. -/
def round2 (x : ℚ) : ℚ :=
  (round (x * 100) : ℤ) / 100

/-- The `StockPrice.percentage_change(previous_price)` (pricing/models.py:173-178).
`if previous_price and previous_price.price:` guards both a `None` argument and
a zero (falsy) previous price, returning `0.0`; otherwise the change is
computed and rounded. `none` in the result marks a raised exception — the
theorem shows it never occurs. -/
def percentage_change (selfPrice : ℚ) (previous : Option StockPrice) : Option ℚ :=
  match previous with
  | none => some 0
  | some prev =>
    if prev.price = 0 then some 0
    else
      match divChecked (selfPrice - prev.price) prev.price with
      | none => none
      | some c => some (round2 (c * 100))

/-! ## Quote-provider interface and ingestion (pricing/tasks.py) -/

/-- The `'Global Quote'` object of a provider response. A field is
`none` when absent (the code substitutes `0`), `some none` when present but
malformed (`float`/`int` raises `ValueError`), and `some (some v)` when it
parses to `v`. -/
structure GlobalQuote where
  price : Option (Option ℚ)
  volume : Option (Option Int)
  deriving DecidableEq, Repr

/-- A provider response: either the HTTP request itself fails
(`requests.RequestException`), or JSON arrives, possibly carrying an
`"Error Message"` field, a `"Note"` (rate-limit) field, and a
`"Global Quote"` object (`none` also covers an empty — falsy — dict). -/
inductive ApiResponse where
  | requestFailure (msg : String)
  | json (errorMessage : Option String) (note : Option String) (globalQuote : Option GlobalQuote)
  deriving DecidableEq, Repr

/-- The parsed result `{price, volume}` (the timestamp `timezone.now()` is
added by the caller). -/
structure PriceData where
  price : ℚ
  volume : Int
  deriving DecidableEq, Repr

/-- The `fetch_stock_price_from_api` (pricing/tasks.py:78-133): every failure —
request error, `"Error Message"`, `"Note"`, missing/empty `"Global Quote"`,
parse error — yields `None`; absent price/volume fields default to `0`. -/
def fetch_stock_price_from_api (resp : ApiResponse) : Option PriceData :=
  match resp with
  | .requestFailure _ => none
  | .json errorMessage note globalQuote =>
    if errorMessage.isSome then none
    else if note.isSome then none
    else
      match globalQuote with
      | none => none
      | some q =>
        let priceParsed : Option ℚ := match q.price with
          | none => some 0
          | some v => v
        let volumeParsed : Option Int := match q.volume with
          | none => some 0
          | some v => v
        match priceParsed, volumeParsed with
        | some p, some v => some ⟨p, v⟩
        | _, _ => none

/-- One iteration of the ingestion loop body for a stock whose processing does
not raise: fetch, and on data run the idempotent `get_or_create` with source
`'ALPHA_VANTAGE'` and timestamp `timezone.now()` (pricing/tasks.py:47-63). -/
def ingest_one (st : PriceState) (s : Stock) (resp : ApiResponse) (now : Nat) : PriceState :=
  match fetch_stock_price_from_api resp with
  | none => st
  | some pd => (get_or_create st s now pd.price pd.volume "ALPHA_VANTAGE").2.2

/-- The `fetch_stock_prices` (pricing/tasks.py:25-70): loop over the active
stocks; the per-stock `try/except ... continue` makes any raising stock
(injected via `storeOk s = false`, e.g. the DB write raising) leave the state
untouched and never stops the loop. Returns the final state and
`stocks_processed = stocks.count()`. `api` gives each stock's response and
`now` each stock's `timezone.now()`. -/
def fetch_stock_prices (api : Stock → ApiResponse) (now : Stock → Nat)
    (storeOk : Stock → Bool) : List Stock → PriceState → PriceState × Nat
  | [], st => (st, 0)
  | s :: rest, st =>
    let st1 := if storeOk s then ingest_one st s (api s) (now s) else st
    let r := fetch_stock_prices api now storeOk rest st1
    (r.1, r.2 + 1)

/-! ## Data model: alerts and notifications (notifications/models.py) -/

/-- The `PriceAlert.CONDITION_TYPES`. -/
inductive ConditionType where
  | PRICE_ABOVE
  | PRICE_BELOW
  | PERCENT_CHANGE
  deriving DecidableEq, Repr

/-- A `PriceAlert` row (notifications/models.py:40-106); `user`/`id` fields
not touched by the pipeline are reduced to a numeric id. -/
structure PriceAlert where
  alertId : Nat
  userId : Nat
  stock : Stock
  condition_type : ConditionType
  threshold_value : ℚ
  one_time : Bool
  is_active : Bool
  triggered_at : Option Nat
  last_checked_at : Option Nat
  deriving DecidableEq, Repr

/-- The `PriceAlert.check_condition(current_price)` (notifications/models.py:111-133):
`if not current_price: return False`; strict `>` for `PRICE_ABOVE`, strict `<`
for `PRICE_BELOW`; `PERCENT_CHANGE` always `False` (no historical baseline). -/
def PriceAlert.check_condition (a : PriceAlert) (current_price : Option StockPrice) : Bool :=
  match current_price with
  | none => false
  | some cp =>
    match a.condition_type with
    | .PRICE_ABOVE => decide (cp.price > a.threshold_value)
    | .PRICE_BELOW => decide (cp.price < a.threshold_value)
    | .PERCENT_CHANGE => false

/-- The `PriceAlert.trigger()` (notifications/models.py:135-145): `triggered_at = now`;
`is_active = False` only when `one_time`. -/
def PriceAlert.trigger (a : PriceAlert) (now : Nat) : PriceAlert :=
  { a with triggered_at := some now,
           is_active := if a.one_time then false else a.is_active }

/-- The `PriceAlert.objects.active_alerts()` (notifications/models.py:27-29):
`is_active=True, triggered_at__isnull=True`. -/
def active_alerts (alerts : List PriceAlert) : List PriceAlert :=
  List.filter (fun a => a.is_active && a.triggered_at.isNone) alerts

/-- The `Notification.STATUS_CHOICES`. -/
inductive NotificationStatus where
  | PENDING
  | SENT
  | FAILED
  deriving DecidableEq, Repr

/-- A `Notification` row (notifications/models.py:148-242); `error_message`
is a text field defaulting to the empty string. -/
structure Notification where
  notifId : Nat
  userId : Nat
  alertId : Nat
  status : NotificationStatus
  sent_at : Option Nat
  error_message : String
  read_at : Option Nat
  deriving DecidableEq, Repr

/-- The `Notification.mark_as_sent()` (notifications/models.py:247-251). -/
def Notification.mark_as_sent (n : Notification) (now : Nat) : Notification :=
  { n with status := .SENT, sent_at := some now }

/-- The `Notification.mark_as_failed(error)` (notifications/models.py:253-257). -/
def Notification.mark_as_failed (n : Notification) (err : String) : Notification :=
  { n with status := .FAILED, error_message := err }

/-- The `Notification.mark_as_read()` (notifications/models.py:259-263): stamps
`read_at` once; never touches the status. -/
def Notification.mark_as_read (n : Notification) (now : Nat) : Notification :=
  if n.read_at = none then { n with read_at := some now } else n

/-- The `Notification.objects.create(..., status='PENDING')`
(notifications/tasks.py:103-111): a fresh PENDING record. -/
def newNotification (nid userId alertId : Nat) : Notification :=
  { notifId := nid, userId := userId, alertId := alertId,
    status := .PENDING, sent_at := none, error_message := "", read_at := none }

/-! ## Notification dispatcher (notifications/tasks.py:72-135)

One invocation of `send_price_alert_notification` creates a fresh PENDING
record, attempts `send_mail`, and marks that same record SENT or FAILED.
On failure it raises, and Celery's `self.retry` re-invokes the whole task
(up to `max_retries=3` further invocations), so each attempt runs the body —
record creation included — again. The SMTP outcome of an attempt is injected
as an `Except String Unit`. -/

/-- The record as it stands at the end of one task invocation: the fresh
PENDING record after `mark_as_sent`/`mark_as_failed`. -/
def attemptFinalRecord (nid userId alertId : Nat) (emailResult : Except String Unit)
    (now : Nat) : Notification :=
  match emailResult with
  | .ok _ => (newNotification nid userId alertId).mark_as_sent now
  | .error e => (newNotification nid userId alertId).mark_as_failed e

/-- The successive states of the attempt's record inside one invocation:
created PENDING, then marked exactly once. -/
def attemptRecordStates (nid userId alertId : Nat) (emailResult : Except String Unit)
    (now : Nat) : List Notification :=
  [newNotification nid userId alertId, attemptFinalRecord nid userId alertId emailResult now]

/-- One invocation of `send_price_alert_notification`: the notifications table
gains the attempt's record (created, then updated in place before the task
ends — the table holds its final state), and the task's outcome is `ok` on
delivery success, `error` (re-raised for retry) on failure. -/
def send_price_alert_notification (records : List Notification) (nid userId alertId : Nat)
    (emailResult : Except String Unit) (now : Nat) : List Notification × Except String Unit :=
  (records ++ [attemptFinalRecord nid userId alertId emailResult now],
   match emailResult with
   | .ok _ => .ok ()
   | .error e => .error e)

/-- The scheduler's retry driver around `send_price_alert_notification`: run
the task; on `error` re-invoke it (a fresh UUID per created record, modelled
as `nid + 1`) while attempts remain. `outcomes` lists each attempt's SMTP
result; its length is bounded by the scheduler (initial call + `max_retries`). -/
def dispatchWithRetries (records : List Notification) (nid userId alertId : Nat)
    (outcomes : List (Except String Unit)) (now : Nat) : List Notification :=
  match outcomes with
  | [] => records
  | o :: rest =>
    let r := send_price_alert_notification records nid userId alertId o now
    match r.2 with
    | .ok _ => r.1
    | .error _ => dispatchWithRetries r.1 (nid + 1) userId alertId rest now

/-! ## Alert evaluator (notifications/tasks.py:16-69) -/

/-- The loop body for one alert once its latest price is in hand
(notifications/tasks.py:50-63): check the condition, trigger on a match, and
set `last_checked_at = now` in every case. Returns the persisted alert and
whether it fired. -/
def evaluateAlertStep (a : PriceAlert) (latest : Option StockPrice) (now : Nat) :
    PriceAlert × Bool :=
  match latest with
  | none => (a, false)
  | some _ =>
    let fired := a.check_condition latest
    let a1 := if fired then a.trigger now else a
    ({ a1 with last_checked_at := some now }, fired)

/-- The `for alert in alerts:` loop of `evaluate_price_alerts`. There is no
`try/except` inside the loop: when an alert's processing raises (injected as
`saveOk a = false`, e.g. `alert.save` failing), the exception propagates to
the task-level handler, which logs and re-raises — the remaining alerts are
left untouched. `latest_price` goes through the shared cache, so the
`PriceState` threads through. Returns the alert registry after the task, the
final price state, and `ok triggered_count` or the raised error. -/
def evaluate_loop (now : Nat) (saveOk : PriceAlert → Bool) :
    List PriceAlert → PriceState → List PriceAlert × PriceState × Except String Nat
  | [], st => ([], st, .ok 0)
  | a :: rest, st =>
    let lp := latest_price st a.stock
    match lp.1 with
    | none =>
      let r := evaluate_loop now saveOk rest lp.2
      (a :: r.1, r.2.1, r.2.2)
    | some price =>
      if saveOk a then
        let step := evaluateAlertStep a (some price) now
        let r := evaluate_loop now saveOk rest lp.2
        (step.1 :: r.1, r.2.1,
         Except.map (fun n => n + (if step.2 then 1 else 0)) r.2.2)
      else
        (a :: rest, lp.2, .error "alert processing raised")

/-- The `evaluate_price_alerts`: select the active alerts and run the loop. -/
def evaluate_price_alerts (alerts : List PriceAlert) (st : PriceState) (now : Nat)
    (saveOk : PriceAlert → Bool) : List PriceAlert × PriceState × Except String Nat :=
  evaluate_loop now saveOk (active_alerts alerts) st

/-! ## Concrete fixtures used by witnesses -/

/-- A sample stock. -/
def aapl : Stock := ⟨1, "AAPL"⟩

/-- A sample stock with no price data. -/
def novaStock : Stock := ⟨2, "NOVA"⟩

/-- A sample price row for `aapl`. -/
def aaplPrice (q : ℚ) (ts : Nat) : StockPrice :=
  ⟨aapl, q, 1000, "ALPHA_VANTAGE", ts⟩

/-- A sample alert on `aapl`. -/
def mkAlert (i : Nat) (c : ConditionType) (thr : ℚ) (oneTime : Bool) : PriceAlert :=
  ⟨i, 1, aapl, c, thr, oneTime, true, none, none⟩

/-- An alert whose per-alert processing will be made to raise. -/
def badAlert : PriceAlert := mkAlert 1 ConditionType.PRICE_ABOVE 100 true

/-- An alert behind `badAlert` in the scan order. -/
def goodAlert : PriceAlert := mkAlert 2 ConditionType.PRICE_ABOVE 100 true

/-- An alert on a stock with no price data. -/
def noPriceAlert : PriceAlert := ⟨3, 1, novaStock, ConditionType.PRICE_BELOW, 50, true,
  true, none, none⟩

/-- A price state holding one AAPL row and an empty cache. -/
def priceSt0 : PriceState := ⟨[aaplPrice 150 1], []⟩

/-! ## Theorems -/

/-- Claim **C4** — `check_condition` is a pure Boolean function of the alert's
condition and the latest price: true exactly when `PRICE_ABOVE` and
`price > threshold_value`, or `PRICE_BELOW` and `price < threshold_value`;
`PERCENT_CHANGE` never triggers. (Purity is built into the embedding's type:
the function returns only a `Bool`, touching neither record.) -/
theorem check_condition_spec (a : PriceAlert) (p : StockPrice) :
    (a.check_condition (some p) = true ↔
      ((a.condition_type = ConditionType.PRICE_ABOVE ∧ a.threshold_value < p.price) ∨
       (a.condition_type = ConditionType.PRICE_BELOW ∧ p.price < a.threshold_value))) ∧
    (a.condition_type = ConditionType.PERCENT_CHANGE →
      a.check_condition (some p) = false) := by
  constructor
  · cases hc : a.condition_type <;>
      simp [PriceAlert.check_condition, hc, gt_iff_lt]
  · intro hc
    simp [PriceAlert.check_condition, hc]

/-- Witness for C4 at concrete inputs. -/
theorem check_condition_spec_witness :
    ((mkAlert 1 ConditionType.PRICE_ABOVE 100 true).check_condition
        (some (aaplPrice 101 0)) = true ↔
      ((ConditionType.PRICE_ABOVE = ConditionType.PRICE_ABOVE ∧ (100 : ℚ) < 101) ∨
       (ConditionType.PRICE_ABOVE = ConditionType.PRICE_BELOW ∧ (101 : ℚ) < 100))) ∧
    (ConditionType.PRICE_ABOVE = ConditionType.PERCENT_CHANGE →
      (mkAlert 1 ConditionType.PRICE_ABOVE 100 true).check_condition
        (some (aaplPrice 101 0)) = false) :=
  check_condition_spec (mkAlert 1 ConditionType.PRICE_ABOVE 100 true) (aaplPrice 101 0)

/-- Claim **C5** — `trigger` stamps `triggered_at = now` (non-null); a `one_time`
alert is deactivated, a recurring one keeps its `is_active` value (so an
active recurring alert stays active). -/
theorem trigger_spec (a : PriceAlert) (now : Nat) :
    (a.trigger now).triggered_at = some now ∧
    (a.one_time = true → (a.trigger now).is_active = false) ∧
    (a.one_time = false → (a.trigger now).is_active = a.is_active) := by
  refine ⟨rfl, ?_, ?_⟩ <;> intro h <;> simp [PriceAlert.trigger, h]

/-- Witness for C5: a one-time alert triggered at 42. -/
theorem trigger_spec_witness :
    ((mkAlert 1 ConditionType.PRICE_ABOVE 100 true).trigger 42).triggered_at = some 42 ∧
    (true = true →
      ((mkAlert 1 ConditionType.PRICE_ABOVE 100 true).trigger 42).is_active = false) ∧
    (true = false →
      ((mkAlert 1 ConditionType.PRICE_ABOVE 100 true).trigger 42).is_active = true) :=
  trigger_spec (mkAlert 1 ConditionType.PRICE_ABOVE 100 true) 42

/-- Claim **C10** — `percentage_change` is total: it never reaches the
division-by-zero branch and always returns a value — `0.0` when the previous
price is absent or zero (the falsy guard), the rounded relative change
otherwise. -/
theorem percentage_change_total (selfPrice : ℚ) (previous : Option StockPrice) :
    ∃ r : ℚ, percentage_change selfPrice previous = some r ∧
      (previous = none → r = 0) ∧
      (∀ prev, previous = some prev → prev.price = 0 → r = 0) ∧
      (∀ prev, previous = some prev → prev.price ≠ 0 →
        r = round2 ((selfPrice - prev.price) / prev.price * 100)) := by
  cases previous with
  | none =>
    refine ⟨0, rfl, fun _ => rfl, ?_, ?_⟩
    · intro prev h
      cases h
    · intro prev h
      cases h
  | some prev =>
    by_cases h : prev.price = 0
    · refine ⟨0, ?_, ?_, ?_, ?_⟩
      · simp [percentage_change, h]
      · intro hn
        cases hn
      · intro q hq _
        rfl
      · intro q hq hne
        cases hq
        exact absurd h hne
    · refine ⟨round2 ((selfPrice - prev.price) / prev.price * 100), ?_, ?_, ?_, ?_⟩
      · simp [percentage_change, divChecked, h]
      · intro hn
        cases hn
      · intro q hq hz
        cases hq
        exact absurd hz h
      · intro q hq _
        cases hq
        rfl

/-- Witness for C10: price 110 against a previous price of 100 yields 10%. -/
theorem percentage_change_total_witness :
    ∃ r : ℚ, percentage_change 110 (some (aaplPrice 100 0)) = some r ∧
      (some (aaplPrice 100 0) = none → r = 0) ∧
      (∀ prev, some (aaplPrice 100 0) = some prev → prev.price = 0 → r = 0) ∧
      (∀ prev, some (aaplPrice 100 0) = some prev → prev.price ≠ 0 →
        r = round2 ((110 - prev.price) / prev.price * 100)) :=
  percentage_change_total 110 (some (aaplPrice 100 0))

/-! ### Helper lemmas on the store and cache -/

/-- The `find?` skips a prefix in which nothing matches. -/
theorem find?_append_of_none {α : Type} (p : α → Bool) (l1 l2 : List α)
    (h : List.find? p l1 = none) :
    List.find? p (l1 ++ l2) = List.find? p l2 := by
  induction l1 with
  | nil => rfl
  | cons x xs ih =>
    cases hx : p x with
    | true => simp [List.find?, hx] at h
    | false =>
      simp only [List.cons_append, List.find?, hx] at h ⊢
      exact ih h

/-- In a store with no row for `(s, ts)`, the `get_or_create` probe misses. -/
theorem find_timestamp_none (store : List StockPrice) (s : Stock) (ts : Nat)
    (h : ∀ p ∈ store, p.stock.stockId = s.stockId → p.timestamp ≠ ts) :
    List.find? (fun p => p.timestamp == ts) (storeFilter store s) = none := by
  apply List.find?_eq_none.mpr
  intro p hp
  have hmem := List.mem_filter.mp hp
  have hid : p.stock.stockId = s.stockId := by
    have := hmem.2
    simpa using this
  simpa using h p hmem.1 hid

/-- Rows of `storeFilter` that match `(s, ts)` are exactly the rows of the
store that match; the filter predicate is the conjunction. -/
theorem filter_key_append (store : List StockPrice) (s : Stock) (ts : Nat)
    (h : ∀ p ∈ store, p.stock.stockId = s.stockId → p.timestamp ≠ ts) :
    List.filter (fun p => p.stock.stockId == s.stockId && p.timestamp == ts) store = [] := by
  apply List.filter_eq_nil_iff.mpr
  intro p hp
  intro hcontra
  have h1 : p.stock.stockId = s.stockId := by
    have := (Bool.and_eq_true _ _).mp hcontra
    simpa using this.1
  have h2 : p.timestamp = ts := by
    have := (Bool.and_eq_true _ _).mp hcontra
    simpa using this.2
  exact h p hp h1 h2

/-- Claim **C3** — the ingestion write is idempotent. Starting from a store with no
row for `(s, ts)`, running the `get_or_create` write twice with the same
fetched quote leaves exactly one `StockPrice` row keyed `(s, ts)`, and the
second run changes nothing at all (store, cache, everything). -/
theorem ingestion_idempotent (st : PriceState) (s : Stock) (ts : Nat) (pr : ℚ) (v : Int)
    (h : ∀ p ∈ st.store, p.stock.stockId = s.stockId → p.timestamp ≠ ts) :
    (get_or_create (get_or_create st s ts pr v "ALPHA_VANTAGE").2.2 s ts pr v
        "ALPHA_VANTAGE").2.2
      = (get_or_create st s ts pr v "ALPHA_VANTAGE").2.2 ∧
    (List.filter (fun p => p.stock.stockId == s.stockId && p.timestamp == ts)
        (get_or_create st s ts pr v "ALPHA_VANTAGE").2.2.store).length = 1 := by
  have hmiss := find_timestamp_none st.store s ts h
  have hfirst : get_or_create st s ts pr v "ALPHA_VANTAGE"
      = (⟨s, pr, v, "ALPHA_VANTAGE", ts⟩, true,
         StockPrice.save st ⟨s, pr, v, "ALPHA_VANTAGE", ts⟩) := by
    unfold get_or_create
    rw [hmiss]
  constructor
  · rw [hfirst]
    unfold get_or_create
    have hfilter : storeFilter (StockPrice.save st ⟨s, pr, v, "ALPHA_VANTAGE", ts⟩).store s
        = storeFilter st.store s ++ [⟨s, pr, v, "ALPHA_VANTAGE", ts⟩] := by
      unfold StockPrice.save storeFilter
      rw [List.filter_append]
      simp
    rw [hfilter, find?_append_of_none _ _ _ hmiss]
    simp [List.find?]
  · rw [hfirst]
    unfold StockPrice.save
    simp only [List.filter_append, filter_key_append st.store s ts h]
    simp

/-- Witness for C3: ingesting the same quote twice into an empty store. -/
theorem ingestion_idempotent_witness :
    ((0 : Nat) < 1 ∧
      (get_or_create (get_or_create ⟨[], []⟩ aapl 3 150 7 "ALPHA_VANTAGE").2.2 aapl 3 150 7
          "ALPHA_VANTAGE").2.2
        = (get_or_create ⟨[], []⟩ aapl 3 150 7 "ALPHA_VANTAGE").2.2) ∧
    (List.filter (fun p => p.stock.stockId == aapl.stockId && p.timestamp == 3)
        (get_or_create ⟨[], []⟩ aapl 3 150 7 "ALPHA_VANTAGE").2.2.store).length = 1 := by
  have h := ingestion_idempotent ⟨[], []⟩ aapl 3 150 7 (by intro p hp; cases hp)
  exact ⟨⟨Nat.zero_lt_one, h.1⟩, h.2⟩

/-- Deleting a cache key makes a lookup of that key miss. -/
theorem cacheGet_delete_self (c : Cache) (k : String) :
    cacheGet (cacheDelete c k) k = none := by
  unfold cacheGet cacheDelete
  have : List.find? (fun e => e.1 == k) (List.filter (fun e => e.1 != k) c) = none := by
    apply List.find?_eq_none.mpr
    intro e he
    have hne := (List.mem_filter.mp he).2
    simp only [bne_iff_ne, ne_eq, decide_eq_true_eq] at hne
    simpa using hne
  rw [this]

/-- Appending a strictly-newest row makes it the latest. -/
theorem latestByTimestamp_append_max (l : List StockPrice) (p : StockPrice)
    (h : ∀ q ∈ l, q.timestamp < p.timestamp) :
    latestByTimestamp (l ++ [p]) = some p := by
  induction l with
  | nil => rfl
  | cons x xs ih =>
    have hx : x.timestamp < p.timestamp := h x (List.mem_cons_self x xs)
    have hrest : ∀ q ∈ xs, q.timestamp < p.timestamp := by
      intro q hq
      exact h q (List.mem_cons_of_mem x hq)
    show latestByTimestamp (x :: (xs ++ [p])) = some p
    unfold latestByTimestamp
    rw [ih hrest]
    simp [Nat.not_lt.mpr (Nat.le_of_lt hx), Nat.lt_asymm hx]

/-- Claim **C7** — `StockPrice.save` deletes the cached latest-price entry for the
stock, and a subsequent `latest_price` read re-queries the store and returns
the freshly written row (assuming the fresh row is the newest for its stock,
which a fresh quote is). -/
theorem save_invalidates_and_rereads (st : PriceState) (p : StockPrice)
    (hmax : ∀ q ∈ st.store, q.stock.stockId = p.stock.stockId → q.timestamp < p.timestamp) :
    cacheGet (StockPrice.save st p).cache (latestPriceKey p.stock) = none ∧
    (latest_price (StockPrice.save st p) p.stock).1 = some p := by
  have hdel : cacheGet (StockPrice.save st p).cache (latestPriceKey p.stock) = none :=
    cacheGet_delete_self st.cache (latestPriceKey p.stock)
  refine ⟨hdel, ?_⟩
  have hfilter : storeFilter (StockPrice.save st p).store p.stock
      = storeFilter st.store p.stock ++ [p] := by
    unfold StockPrice.save storeFilter
    rw [List.filter_append]
    simp
  have hlatest : latestByTimestamp (storeFilter (StockPrice.save st p).store p.stock)
      = some p := by
    rw [hfilter]
    apply latestByTimestamp_append_max
    intro q hq
    have hmem := List.mem_filter.mp hq
    have hid : q.stock.stockId = p.stock.stockId := by
      have := hmem.2
      simpa using this
    exact hmax q hmem.1 hid
  unfold latest_price
  rw [hdel, hlatest]

/-- Witness for C7: writing a newer AAPL price over a store holding an older
one; the cache held the stale row beforehand. -/
theorem save_invalidates_and_rereads_witness :
    cacheGet
        (StockPrice.save ⟨[aaplPrice 100 1], [(latestPriceKey aapl, aaplPrice 100 1)]⟩
          (aaplPrice 120 2)).cache
        (latestPriceKey aapl) = none ∧
    (latest_price
        (StockPrice.save ⟨[aaplPrice 100 1], [(latestPriceKey aapl, aaplPrice 100 1)]⟩
          (aaplPrice 120 2))
        aapl).1 = some (aaplPrice 120 2) :=
  save_invalidates_and_rereads
    ⟨[aaplPrice 100 1], [(latestPriceKey aapl, aaplPrice 100 1)]⟩
    (aaplPrice 120 2)
    (by decide)

/-- Unfolding equation for one ingestion-loop iteration. -/
theorem fetch_stock_prices_cons (api : Stock → ApiResponse) (now : Stock → Nat)
    (storeOk : Stock → Bool) (s : Stock) (rest : List Stock) (st : PriceState) :
    fetch_stock_prices api now storeOk (s :: rest) st
      = ((fetch_stock_prices api now storeOk rest
            (if storeOk s then ingest_one st s (api s) (now s) else st)).1,
         (fetch_stock_prices api now storeOk rest
            (if storeOk s then ingest_one st s (api s) (now s) else st)).2 + 1) := rfl

/-- Claim **C8** — provider failure handling and ingestion-loop isolation: an
`"Error Message"` field, a `"Note"` (rate-limit) field, a request-level
failure, a missing/empty `"Global Quote"`, or a parse failure all make the
per-stock fetch return "no data" rather than raise (the embedding's `fetch`
is total with an `Option` result); and a stock whose processing raises
(`storeOk b = false`) leaves the run's final state exactly as if that stock
had been skipped — the remaining stocks are all still processed. -/
theorem fetch_failures_isolated :
    (∀ msg : String, fetch_stock_price_from_api (ApiResponse.requestFailure msg) = none) ∧
    (∀ (e : String) (note : Option String) (gq : Option GlobalQuote),
      fetch_stock_price_from_api (ApiResponse.json (some e) note gq) = none) ∧
    (∀ (em : Option String) (n : String) (gq : Option GlobalQuote),
      fetch_stock_price_from_api (ApiResponse.json em (some n) gq) = none) ∧
    (fetch_stock_price_from_api (ApiResponse.json none none none) = none) ∧
    (∀ q : GlobalQuote, q.price = some none ∨ q.volume = some none →
      fetch_stock_price_from_api (ApiResponse.json none none (some q)) = none) ∧
    (∀ (api : Stock → ApiResponse) (now : Stock → Nat) (storeOk : Stock → Bool)
        (pre post : List Stock) (b : Stock) (st : PriceState),
      storeOk b = false →
      (fetch_stock_prices api now storeOk (pre ++ b :: post) st).1
        = (fetch_stock_prices api now storeOk (pre ++ post) st).1) := by
  refine ⟨fun _ => rfl, fun _ _ _ => rfl, ?_, rfl, ?_, ?_⟩
  · intro em n gq
    cases em <;> rfl
  · intro q hq
    rcases hq with hp | hv
    · simp [fetch_stock_price_from_api, hp]
    · cases hp : q.price with
      | none => simp [fetch_stock_price_from_api, hp, hv]
      | some v => cases v <;> simp [fetch_stock_price_from_api, hp, hv]
  · intro api now storeOk pre post b st hb
    induction pre generalizing st with
    | nil =>
      simp only [List.nil_append]
      rw [fetch_stock_prices_cons, hb]
      simp
    | cons s ss ih =>
      simp only [List.cons_append, fetch_stock_prices_cons]
      exact ih _

/-- Witness for C8: a rate-limit `"Note"` response yields no data, and a
two-stock run with the first stock's write raising still processes the
second stock. -/
theorem fetch_failures_isolated_witness :
    fetch_stock_price_from_api (ApiResponse.json none (some "rate limited") none) = none ∧
    (fetch_stock_prices (fun _ => ApiResponse.json none none
          (some ⟨some (some 150), some (some 9)⟩))
        (fun _ => 3) (fun s => s.stockId != 2) ([] ++ novaStock :: [aapl]) ⟨[], []⟩).1
      = (fetch_stock_prices (fun _ => ApiResponse.json none none
          (some ⟨some (some 150), some (some 9)⟩))
        (fun _ => 3) (fun s => s.stockId != 2) ([] ++ [aapl]) ⟨[], []⟩).1 := by
  have h := fetch_failures_isolated
  refine ⟨h.2.2.1 none "rate limited" none, ?_⟩
  exact h.2.2.2.2.2 _ _ _ [] [aapl] novaStock ⟨[], []⟩ (by decide)

/-! ### Dispatcher lemmas -/

/-- The retry driver only ever appends to the notifications table. -/
theorem dispatchWithRetries_append (userId alertId now : Nat) :
    ∀ (outcomes : List (Except String Unit)) (records : List Notification) (nid : Nat),
      dispatchWithRetries records nid userId alertId outcomes now
        = records ++ dispatchWithRetries [] nid userId alertId outcomes now := by
  intro outcomes
  induction outcomes with
  | nil =>
    intro records nid
    simp [dispatchWithRetries]
  | cons o rest ih =>
    intro records nid
    cases o with
    | ok u =>
      cases u
      simp [dispatchWithRetries, send_price_alert_notification]
    | error e =>
      show dispatchWithRetries (records ++ [attemptFinalRecord nid userId alertId
            (Except.error e) now]) (nid + 1) userId alertId rest now
          = records ++ dispatchWithRetries ([] ++ [attemptFinalRecord nid userId alertId
            (Except.error e) now]) (nid + 1) userId alertId rest now
      rw [ih, List.nil_append, ih [attemptFinalRecord nid userId alertId (Except.error e) now]]
      rw [List.append_assoc]

/-- Claim **C1 counterexample** — two consecutive SMTP failures for a single
triggered alert: the dispatcher leaves TWO NotificationRecords (one per
attempt, each immediately FAILED with that attempt's error), refuting
"exactly one NotificationRecord ... updated in place ... no second record". -/
theorem dispatch_duplicate_records_cex :
    ¬ ((dispatchWithRetries [] 10 1 2
          [Except.error "smtp down", Except.error "smtp still down"] 7).length = 1) ∧
    (dispatchWithRetries [] 10 1 2
        [Except.error "smtp down", Except.error "smtp still down"] 7).length = 2 ∧
    List.map Notification.status (dispatchWithRetries [] 10 1 2
        [Except.error "smtp down", Except.error "smtp still down"] 7)
      = [NotificationStatus.FAILED, NotificationStatus.FAILED] := by
  refine ⟨by decide, by decide, by decide⟩

/-- Claim **C1 amended** — one NotificationRecord per delivery attempt, not one per
trigger. A run of `k` failed attempts leaves `k` records, each FAILED
immediately with that attempt's error (the last record carries the last
error); a run of `k` failures followed by a success leaves `k` FAILED records
plus one final SENT record with `sent_at = now`. -/
theorem dispatch_one_record_per_attempt (errs : List String) (nid userId alertId now : Nat) :
    (List.map Notification.status
        (dispatchWithRetries [] nid userId alertId (List.map Except.error errs) now)
      = List.map (fun _ => NotificationStatus.FAILED) errs ∧
     List.map Notification.error_message
        (dispatchWithRetries [] nid userId alertId (List.map Except.error errs) now)
      = errs) ∧
    (List.map Notification.status
        (dispatchWithRetries [] nid userId alertId
          (List.map Except.error errs ++ [Except.ok ()]) now)
      = List.map (fun _ => NotificationStatus.FAILED) errs ++ [NotificationStatus.SENT] ∧
     List.map Notification.sent_at
        (dispatchWithRetries [] nid userId alertId
          (List.map Except.error errs ++ [Except.ok ()]) now)
      = List.map (fun _ => (none : Option Nat)) errs ++ [some now]) := by
  induction errs generalizing nid with
  | nil =>
    refine ⟨⟨rfl, rfl⟩, ?_, ?_⟩ <;>
      simp [dispatchWithRetries, send_price_alert_notification, attemptFinalRecord,
        newNotification, Notification.mark_as_sent]
  | cons e es ih =>
    have step : ∀ tail : List (Except String Unit),
        dispatchWithRetries [] nid userId alertId (Except.error e :: tail) now
          = attemptFinalRecord nid userId alertId (Except.error e) now ::
              dispatchWithRetries [] (nid + 1) userId alertId tail now := by
      intro tail
      show dispatchWithRetries ([] ++ [attemptFinalRecord nid userId alertId
            (Except.error e) now]) (nid + 1) userId alertId tail now = _
      rw [List.nil_append,
        dispatchWithRetries_append userId alertId now tail _ (nid + 1)]
      rfl
    have hfail : Notification.status
          (attemptFinalRecord nid userId alertId (Except.error e) now)
        = NotificationStatus.FAILED := rfl
    have hmsg : Notification.error_message
          (attemptFinalRecord nid userId alertId (Except.error e) now) = e := rfl
    have hsent : Notification.sent_at
          (attemptFinalRecord nid userId alertId (Except.error e) now)
        = (none : Option Nat) := rfl
    refine ⟨⟨?_, ?_⟩, ?_, ?_⟩
    · rw [List.map_cons, step, List.map_cons, hfail, (ih (nid + 1)).1.1, List.map_cons]
    · rw [List.map_cons, step, List.map_cons, hmsg, (ih (nid + 1)).1.2]
    · rw [List.map_cons, List.cons_append, step, List.map_cons, hfail,
        (ih (nid + 1)).2.1, List.map_cons, List.cons_append]
    · rw [List.map_cons, List.cons_append, step, List.map_cons, hsent,
        (ih (nid + 1)).2.2, List.map_cons, List.cons_append]

/-- Claim **C9** — NotificationRecord lifecycle: records are created PENDING; inside
one dispatch attempt the record's state trace is exactly
`[PENDING, SENT]` (delivery ok, `sent_at` stamped) or `[PENDING, FAILED]`
(delivery raised, `error_message` stamped); `mark_as_read` never touches the
status; and the retry driver only appends fresh records — it never revisits a
SENT or FAILED record, so both are terminal. -/
theorem notification_status_transitions (nid userId alertId now : Nat)
    (o : Except String Unit) (n : Notification) (e : String)
    (records : List Notification) (outcomes : List (Except String Unit))
    (nid2 userId2 alertId2 : Nat) :
    (newNotification nid userId alertId).status = NotificationStatus.PENDING ∧
    (List.map Notification.status (attemptRecordStates nid userId alertId o now)
        = [NotificationStatus.PENDING, NotificationStatus.SENT] ∨
     List.map Notification.status (attemptRecordStates nid userId alertId o now)
        = [NotificationStatus.PENDING, NotificationStatus.FAILED]) ∧
    ((n.mark_as_sent now).status = NotificationStatus.SENT ∧
      (n.mark_as_sent now).sent_at = some now) ∧
    ((n.mark_as_failed e).status = NotificationStatus.FAILED ∧
      (n.mark_as_failed e).error_message = e) ∧
    (n.mark_as_read now).status = n.status ∧
    (∃ fresh : List Notification,
      dispatchWithRetries records nid2 userId2 alertId2 outcomes now = records ++ fresh) := by
  refine ⟨rfl, ?_, ⟨rfl, rfl⟩, ⟨rfl, rfl⟩, ?_, ?_⟩
  · cases o with
    | ok u =>
      cases u
      exact Or.inl rfl
    | error msg => exact Or.inr rfl
  · cases h : n.read_at <;> simp [Notification.mark_as_read, h]
  · exact ⟨_, dispatchWithRetries_append userId2 alertId2 now outcomes records nid2⟩

/-- Witness for C9 at concrete inputs: a failing attempt's trace, both marking
operations, `mark_as_read`, and the driver appending to a nonempty table. -/
theorem notification_status_transitions_witness :
    (newNotification 1 2 3).status = NotificationStatus.PENDING ∧
    (List.map Notification.status (attemptRecordStates 1 2 3 (Except.error "smtp down") 9)
        = [NotificationStatus.PENDING, NotificationStatus.SENT] ∨
     List.map Notification.status (attemptRecordStates 1 2 3 (Except.error "smtp down") 9)
        = [NotificationStatus.PENDING, NotificationStatus.FAILED]) ∧
    (((newNotification 1 2 3).mark_as_sent 9).status = NotificationStatus.SENT ∧
      ((newNotification 1 2 3).mark_as_sent 9).sent_at = some 9) ∧
    (((newNotification 1 2 3).mark_as_failed "smtp down").status
        = NotificationStatus.FAILED ∧
      ((newNotification 1 2 3).mark_as_failed "smtp down").error_message = "smtp down") ∧
    ((newNotification 1 2 3).mark_as_read 9).status = (newNotification 1 2 3).status ∧
    (∃ fresh : List Notification,
      dispatchWithRetries [newNotification 4 2 3] 5 2 3 [Except.ok ()] 9
        = [newNotification 4 2 3] ++ fresh) :=
  notification_status_transitions 1 2 3 9 (Except.error "smtp down")
    (newNotification 1 2 3) "smtp down" [newNotification 4 2 3] [Except.ok ()] 5 2 3

/-! ### Evaluator lemmas -/

/-- Unfolding equation for one evaluator-loop iteration. -/
theorem evaluate_loop_cons (now : Nat) (saveOk : PriceAlert → Bool) (a : PriceAlert)
    (rest : List PriceAlert) (st : PriceState) :
    evaluate_loop now saveOk (a :: rest) st
      = match (latest_price st a.stock).1 with
        | none =>
          let r := evaluate_loop now saveOk rest (latest_price st a.stock).2
          (a :: r.1, r.2.1, r.2.2)
        | some price =>
          if saveOk a then
            let step := evaluateAlertStep a (some price) now
            let r := evaluate_loop now saveOk rest (latest_price st a.stock).2
            (step.1 :: r.1, r.2.1,
             Except.map (fun n => n + (if step.2 then 1 else 0)) r.2.2)
          else
            (a :: rest, (latest_price st a.stock).2,
             Except.error "alert processing raised") := rfl

/-- Claim **C2 counterexample** — a raised error while processing one alert is NOT
caught inside the loop: with a price available for both alerts and the first
alert's save raising, the task errors out and the second alert is returned
exactly as it came in (its `last_checked_at` is still `none`, though a price
existed and evaluation would even have triggered it). -/
theorem evaluator_error_not_caught_cex :
    (evaluate_loop 5 (fun a => a.alertId != 1) [badAlert, goodAlert] priceSt0).1
      = [badAlert, goodAlert] ∧
    goodAlert.last_checked_at = none ∧
    ¬ (∀ a ∈ (evaluate_loop 5 (fun a => a.alertId != 1) [badAlert, goodAlert]
          priceSt0).1.drop 1, a.last_checked_at = some 5) ∧
    (evaluate_loop 5 (fun a => a.alertId != 1) [badAlert, goodAlert] priceSt0).2.2
      = Except.error "alert processing raised" := by
  refine ⟨by decide, rfl, by decide, rfl⟩

/-- Claim **C2 amended** — the per-alert exception propagates out of the loop: when
an alert's processing raises (after its price lookup succeeded), the task
returns the error and every alert of the list from the failing one onward is
left exactly as it was — the remaining alerts are not evaluated this cycle. -/
theorem evaluator_error_halts_scan (a : PriceAlert) (rest : List PriceAlert)
    (st : PriceState) (now : Nat) (saveOk : PriceAlert → Bool) (p : StockPrice)
    (hfail : saveOk a = false) (hp : (latest_price st a.stock).1 = some p) :
    evaluate_loop now saveOk (a :: rest) st
      = (a :: rest, (latest_price st a.stock).2,
         Except.error "alert processing raised") := by
  rw [evaluate_loop_cons, hp, hfail]
  simp

/-- Witness for the amended C2: the failing alert plus one remaining alert. -/
theorem evaluator_error_halts_scan_witness :
    evaluate_loop 5 (fun a => a.alertId != 1) (badAlert :: [goodAlert]) priceSt0
      = (badAlert :: [goodAlert], (latest_price priceSt0 badAlert.stock).2,
         Except.error "alert processing raised") :=
  evaluator_error_halts_scan badAlert [goodAlert] priceSt0 5 (fun a => a.alertId != 1)
    (aaplPrice 150 1) (by decide) (by decide)

/-- A cache lookup right after setting the same key hits the new value. -/
theorem cacheGet_set_self (c : Cache) (k : String) (v : StockPrice) :
    cacheGet (cacheSet c k v) k = some v := by
  simp [cacheGet, cacheSet, List.find?]

/-- The `find?` ignores a filter that can only drop non-matching elements. -/
theorem find?_filter_of_imp {α : Type} (p q : α → Bool) (l : List α)
    (h : ∀ x, p x = true → q x = true) :
    List.find? p (List.filter q l) = List.find? p l := by
  induction l with
  | nil => rfl
  | cons x xs ih =>
    cases hq : q x with
    | true =>
      rw [List.filter_cons_of_pos hq]
      cases hpx : p x with
      | true => simp [List.find?, hpx]
      | false => simp [List.find?, hpx, ih]
    | false =>
      have hpx : p x = false := by
        cases hp2 : p x with
        | true => exact absurd (h x hp2) (by simp [hq])
        | false => rfl
      rw [List.filter_cons_of_neg (by simp [hq])]
      simp [List.find?, hpx, ih]

/-- A cache lookup at a different key is unaffected by a set. -/
theorem cacheGet_set_ne (c : Cache) (k k' : String) (v : StockPrice) (h : k' ≠ k) :
    cacheGet (cacheSet c k v) k' = cacheGet c k' := by
  unfold cacheGet cacheSet
  have hk : ((k, v).1 == k') = false := by
    simp only [beq_eq_false_iff_ne, ne_eq]
    exact fun hh => h hh.symm
  rw [List.find?_cons_of_neg _ (by simp [hk])]
  rw [find?_filter_of_imp (fun e => e.1 == k') (fun e => e.1 != k) c]
  intro x hx
  have hx' : x.1 = k' := by simpa using hx
  simp [hx', h]

/-- The cache key determines the symbol. -/
theorem latestPriceKey_inj (s t : Stock) (h : latestPriceKey s = latestPriceKey t) :
    s.symbol = t.symbol := by
  unfold latestPriceKey at h
  have hdata := congrArg String.data h
  rw [String.data_append, String.data_append] at hdata
  exact String.ext (List.append_cancel_left hdata)

/-- Same stock id, same rows: `storeFilter` only looks at the id. -/
theorem storeFilter_congr (store : List StockPrice) (s t : Stock)
    (h : s.stockId = t.stockId) : storeFilter store s = storeFilter store t := by
  unfold storeFilter
  rw [h]

/-- Under a cache coherent with the store (every cached latest-price entry of
an involved stock equals the store's latest row), unambiguous symbols, and no
save errors, the evaluator loop acts independently per alert: the resulting
registry is the pointwise `evaluateAlertStep` image, and the price store is
untouched. -/
theorem evaluate_loop_characterization (now : Nat) (saveOk : PriceAlert → Bool) :
    ∀ (alerts : List PriceAlert) (st : PriceState),
      (∀ a ∈ alerts, saveOk a = true) →
      (∀ a ∈ alerts, cacheGet st.cache (latestPriceKey a.stock) = none ∨
        cacheGet st.cache (latestPriceKey a.stock)
          = latestByTimestamp (storeFilter st.store a.stock)) →
      (∀ a ∈ alerts, ∀ b ∈ alerts, a.stock.symbol = b.stock.symbol →
        a.stock.stockId = b.stock.stockId) →
      (evaluate_loop now saveOk alerts st).1
        = List.map (fun a =>
            (evaluateAlertStep a (latestByTimestamp (storeFilter st.store a.stock)) now).1)
            alerts
      ∧ (evaluate_loop now saveOk alerts st).2.1.store = st.store := by
  intro alerts
  induction alerts with
  | nil =>
    intro st _ _ _
    exact ⟨rfl, rfl⟩
  | cons a rest ih =>
    intro st hsave hcoh hsym
    have hs : saveOk a = true := hsave a (List.mem_cons_self a rest)
    have hsave' : ∀ c ∈ rest, saveOk c = true :=
      fun c hc => hsave c (List.mem_cons_of_mem a hc)
    have hsym' : ∀ c ∈ rest, ∀ b ∈ rest, c.stock.symbol = b.stock.symbol →
        c.stock.stockId = b.stock.stockId :=
      fun c hc b hb => hsym c (List.mem_cons_of_mem a hc) b (List.mem_cons_of_mem a hb)
    cases hcache : cacheGet st.cache (latestPriceKey a.stock) with
    | some v =>
      have hv : latestByTimestamp (storeFilter st.store a.stock) = some v := by
        rcases hcoh a (List.mem_cons_self a rest) with h | h
        · rw [hcache] at h
          cases h
        · rw [hcache] at h
          exact h.symm
      have hlp : latest_price st a.stock = (some v, st) := by
        unfold latest_price
        rw [hcache]
      have hcoh' : ∀ c ∈ rest, cacheGet st.cache (latestPriceKey c.stock) = none ∨
          cacheGet st.cache (latestPriceKey c.stock)
            = latestByTimestamp (storeFilter st.store c.stock) :=
        fun c hc => hcoh c (List.mem_cons_of_mem a hc)
      have hrest := ih st hsave' hcoh' hsym'
      rw [evaluate_loop_cons, hlp]
      simp only [hs, if_true]
      refine ⟨?_, hrest.2⟩
      rw [List.map_cons, hv, hrest.1]
    | none =>
      cases hm : latestByTimestamp (storeFilter st.store a.stock) with
      | none =>
        have hlp : latest_price st a.stock = (none, st) := by
          unfold latest_price
          rw [hcache, hm]
        have hcoh' : ∀ c ∈ rest, cacheGet st.cache (latestPriceKey c.stock) = none ∨
            cacheGet st.cache (latestPriceKey c.stock)
              = latestByTimestamp (storeFilter st.store c.stock) :=
          fun c hc => hcoh c (List.mem_cons_of_mem a hc)
        have hrest := ih st hsave' hcoh' hsym'
        rw [evaluate_loop_cons, hlp]
        refine ⟨?_, hrest.2⟩
        show a :: (evaluate_loop now saveOk rest st).1 = _
        rw [List.map_cons, hm, hrest.1]
        rfl
      | some p =>
        have hlp : latest_price st a.stock
            = (some p, { st with cache := cacheSet st.cache (latestPriceKey a.stock) p }) := by
          unfold latest_price
          rw [hcache, hm]
        have hstore2 : ({ st with
            cache := cacheSet st.cache (latestPriceKey a.stock) p } : PriceState).store
            = st.store := rfl
        have hcoh' : ∀ c ∈ rest,
            cacheGet (cacheSet st.cache (latestPriceKey a.stock) p)
              (latestPriceKey c.stock) = none ∨
            cacheGet (cacheSet st.cache (latestPriceKey a.stock) p)
              (latestPriceKey c.stock)
              = latestByTimestamp (storeFilter st.store c.stock) := by
          intro c hc
          by_cases hk : latestPriceKey c.stock = latestPriceKey a.stock
          · right
            rw [hk, cacheGet_set_self]
            have hsymEq : c.stock.symbol = a.stock.symbol :=
              latestPriceKey_inj c.stock a.stock hk
            have hid : c.stock.stockId = a.stock.stockId :=
              hsym c (List.mem_cons_of_mem a hc) a (List.mem_cons_self a rest) hsymEq
            rw [storeFilter_congr st.store c.stock a.stock hid, hm]
          · rw [cacheGet_set_ne st.cache (latestPriceKey a.stock)
              (latestPriceKey c.stock) p hk]
            exact hcoh c (List.mem_cons_of_mem a hc)
        have hrest := ih { st with cache := cacheSet st.cache (latestPriceKey a.stock) p }
          hsave' hcoh' hsym'
        rw [evaluate_loop_cons, hlp]
        simp only [hs, if_true]
        refine ⟨?_, hrest.2⟩
        rw [List.map_cons, hm, hrest.1]

/-- Claim **C6** — evaluator frame effect (given a cache coherent with the store,
unambiguous stock symbols, and no save errors): the cycle maps each alert
independently through `evaluateAlertStep` applied to its stock's latest
stored price; an alert whose stock has no price row at all comes out
entirely unchanged, while every alert with a latest price has
`last_checked_at` stamped with the evaluation time, triggered or not. -/
theorem evaluator_frame_effect (alerts : List PriceAlert) (st : PriceState) (now : Nat)
    (saveOk : PriceAlert → Bool)
    (hsave : ∀ a ∈ alerts, saveOk a = true)
    (hcoh : ∀ a ∈ alerts, cacheGet st.cache (latestPriceKey a.stock) = none ∨
      cacheGet st.cache (latestPriceKey a.stock)
        = latestByTimestamp (storeFilter st.store a.stock))
    (hsym : ∀ a ∈ alerts, ∀ b ∈ alerts, a.stock.symbol = b.stock.symbol →
      a.stock.stockId = b.stock.stockId) :
    (evaluate_loop now saveOk alerts st).1
      = List.map (fun a =>
          (evaluateAlertStep a (latestByTimestamp (storeFilter st.store a.stock)) now).1)
          alerts
    ∧ (∀ a : PriceAlert, latestByTimestamp (storeFilter st.store a.stock) = none →
        (evaluateAlertStep a (latestByTimestamp (storeFilter st.store a.stock)) now).1 = a)
    ∧ (∀ a : PriceAlert, latestByTimestamp (storeFilter st.store a.stock) ≠ none →
        ((evaluateAlertStep a (latestByTimestamp (storeFilter st.store a.stock)) now).1
          ).last_checked_at = some now) := by
  refine ⟨(evaluate_loop_characterization now saveOk alerts st hsave hcoh hsym).1, ?_, ?_⟩
  · intro a h
    rw [h]
    rfl
  · intro a h
    cases hm : latestByTimestamp (storeFilter st.store a.stock) with
    | none => exact absurd hm h
    | some p => rfl

/-- Witness for C6: one triggering AAPL alert, one non-triggering AAPL alert
and one alert on a stock without any price row, evaluated over `priceSt0`. -/
theorem evaluator_frame_effect_witness :
    (evaluate_loop 7 (fun _ => true) [badAlert, noPriceAlert] priceSt0).1
      = [{ (badAlert.trigger 7) with last_checked_at := some 7 }, noPriceAlert] := by
  have h := evaluator_frame_effect [badAlert, noPriceAlert] priceSt0 7 (fun _ => true)
    (by decide) (by decide) (by decide)
  rw [h.1]
  decide

end StockWatchlist
